import Mathlib

/-!
Shallow embedding of the cli-crypto wallet / network-registry core
(src/core/network/blockchain.ts, src/core/wallet/manager.ts and friends),
together with theorems settling the frozen claims about its specification.

JavaScript idioms are embedded explicitly:
* `a || b` on numbers/strings treats `0` / `""` as falsy (`jsOrNat`, `jsOrStr`);
* `String.prototype.includes` is `strIncludes`;
* a promise that can reject is an `Except`;
* the persisted collections (network registry file, wallet directory) are
  `List` values threaded through the operations.
-/

namespace CliCrypto

/-- JavaScript `o || d` for an optional number: `undefined` and `0` are falsy. -/
def jsOrNat (o : Option Nat) (d : Nat) : Nat :=
  match o with
  | some n => if n = 0 then d else n
  | none => d

/-- JavaScript `o || d` for an optional string: `undefined` and `""` are falsy. -/
def jsOrStr (o : Option String) (d : String) : String :=
  match o with
  | some s => if s = "" then d else s
  | none => d

/-- JavaScript `o || false` for an optional boolean. -/
def jsOrFalse (o : Option Bool) : Bool :=
  match o with
  | some b => b
  | none => false

/-- JavaScript truthiness of an optional number (`undefined` and `0` are falsy). -/
def jsTruthyNat (o : Option Nat) : Bool :=
  match o with
  | some n => n != 0
  | none => false

/-- Whether the character list starts with the given needle. -/
def startsWithChars : List Char → List Char → Bool
  | _, [] => true
  | [], _ :: _ => false
  | c :: cs, d :: ds => c == d && startsWithChars cs ds

/-- Whether the needle occurs somewhere in the haystack. -/
def containsChars (needle : List Char) : List Char → Bool
  | [] => needle.isEmpty
  | c :: cs => startsWithChars (c :: cs) needle || containsChars needle cs

/-- JavaScript `s.includes(sub)` (the empty needle always matches). -/
def strIncludes (s sub : String) : Bool :=
  containsChars sub.data s.data

/-- `s.toLowerCase()` (written out on the character list so that it reduces). -/
def strToLower (s : String) : String :=
  String.mk (s.data.map Char.toLower)

/-- `s.slice(0, n)` (written out on the character list so that it reduces). -/
def strTake (s : String) (n : Nat) : String :=
  String.mk (s.data.take n)

/-! ## Benchmark results (NetworkBenchmarkResult in src/types/network.ts) -/

/-- Result of `NetworkManager.benchmarkNetwork`. Latency aggregates are in
milliseconds; rates are exact rationals standing for the JS floating point
quotients. -/
structure BenchmarkResult where
  success : Bool
  requestsPerSecond : Rat
  averageLatency : Rat
  maxLatency : Nat
  minLatency : Nat
  errorRate : Rat
  deriving Repr, DecidableEq

/-! ## Network registry data model (NetworkConfig in src/types/network.ts) -/

/-- One entry of the persisted network registry file.  Timestamps are
milliseconds since the epoch. -/
structure NetworkConfig where
  name : String
  rpcUrl : String
  chainId : Nat
  currency : String
  explorer : Option String := none
  isTestnet : Bool := false
  isActive : Bool := false
  lastValidated : Option Nat := none
  timeout : Nat := 10000
  retryAttempts : Nat := 3
  benchmarkResults : Option BenchmarkResult := none
  deriving Repr, DecidableEq

/-- Options accepted by `NetworkManager.addNetwork` (NetworkOptions in
src/types/network.ts).  `maxGasPrice` is modelled already parsed, in gwei. -/
structure NetworkOptions where
  name : String
  rpcUrl : String
  chainId : Option Nat := none
  currency : Option String := none
  explorer : Option String := none
  testnet : Option Bool := none
  timeout : Option Nat := none
  maxGasPrice : Option Nat := none
  retryAttempts : Option Nat := none
  deriving Repr, DecidableEq

/-- Errors thrown by the registry operations (`throw new Error(...)` sites in
NetworkManager).  `thrown` carries the message of a rethrown underlying
error. -/
inductive NetErr where
  | notFound (name : String)
  | cannotRemoveActive
  | duplicate (name : String)
  | invalidConfig (errors : List String)
  | thrown (msg : String)
  deriving Repr, DecidableEq

/-- Result of `NetworkManager.validateNetwork` (NetworkValidationResult). -/
structure ValidationResult where
  isValid : Bool
  chainId : Option Nat
  errors : List String
  warnings : List String
  latency : Option Nat
  deriving Repr, DecidableEq

/-- Result of `NetworkManager.testNetwork` (NetworkTestResult). -/
structure TestResult where
  success : Bool
  latency : Nat := 0
  chainId : Nat := 0
  blockHeight : Nat := 0
  errMsg : String := ""
  deriving Repr, DecidableEq

/-- Result of `NetworkManager.switchNetwork` (NetworkSwitchResult). -/
structure SwitchResult where
  previousNetwork : Option String
  newNetwork : String
  success : Bool
  deriving Repr, DecidableEq

/-! ## NetworkManager.removeNetwork (blockchain.ts lines 533-552)

`findIndex` / `splice(index, 1)` is `find?` / `eraseP` on the first entry with
the given name; the active check inspects the found entry before splicing, and
a throw leaves the persisted collection untouched. -/

/-- `removeNetwork`: fails with `notFound` when no entry has the name, with
`cannotRemoveActive` when the (first) entry with the name is active, and
otherwise persists the collection without that entry. -/
def removeNetwork (networks : List NetworkConfig) (name : String) :
    Except NetErr (List NetworkConfig) :=
  match networks.find? (fun n => n.name == name) with
  | none => .error (.notFound name)
  | some n =>
    if n.isActive then .error .cannotRemoveActive
    else .ok (networks.eraseP (fun m => m.name == name))

/-! ## NetworkManager.testNetwork (blockchain.ts lines 768-808)

The probe argument is the outcome of
`Promise.race([Promise.all([getNetwork, getBlockNumber]), timeout])`:
`ok (chainId, blockNumber)` when it resolves, `error msg` when it rejects
(including the timeout rejection).  The whole body is wrapped in try/catch, so
`testNetwork` returns a result object on both paths and never throws. -/

/-- `testNetwork`: converts the liveness probe outcome into a `TestResult`,
catching every failure into `success := false`. -/
def testNetwork (probe : Except String (Nat × Nat)) (latency : Nat) : TestResult :=
  match probe with
  | .ok (chainId, blockNumber) =>
    { success := true, latency := latency, chainId := chainId, blockHeight := blockNumber }
  | .error msg => { success := false, errMsg := msg }

/-! ## NetworkManager.switchNetwork (blockchain.ts lines 321-347) -/

/-- `switchNetwork`: fails with `notFound` if no entry has the name; otherwise
records the previously active entry, runs `await this.testNetwork(\x7b name \x7d)`
(whose result object is not inspected and which never rejects), then sets
`isActive := (n.name == name)` on every entry and persists the whole
collection in one write. -/
def switchNetwork (networks : List NetworkConfig) (name : String)
    (probe : Except String (Nat × Nat)) (latency : Nat) :
    Except NetErr (List NetworkConfig × SwitchResult) :=
  match networks.find? (fun n => n.name == name) with
  | none => .error (.notFound name)
  | some _ =>
    let previous := (networks.find? (fun n => n.isActive)).map (fun n => n.name)
    let _testOutcome := testNetwork probe latency
    let updated := networks.map (fun n => { n with isActive := n.name == name })
    .ok (updated, { previousNetwork := previous, newNetwork := name, success := true })

/-! ## NetworkManager.addNetwork (blockchain.ts lines 259-319)

The retry loop around `await this.validateNetwork(options)` is modelled over an
attempt oracle `attempt : Nat → Except String ValidationResult`: attempt `k` is
the outcome of the promise on the `k`-th try (`error` is a rejection, which the
loop catches; the fixed 1-second inter-attempt sleep is timing behaviour with
no effect on the result).  The loop body breaks on the first attempt that
resolves; only rejected attempts are retried, and after `maxRetries` rejections
the last rejection is rethrown. -/

/-- One unfolding of `while (retryCount < maxRetries)` with `fuel` iterations
remaining; returns the loop outcome (`ok none` when the loop never ran)
together with the number of attempts made. -/
def validationLoopGo (attempt : Nat → Except String ValidationResult) :
    Nat → Nat → Except String (Option ValidationResult) × Nat
  | 0, retryCount => (.ok none, retryCount)
  | fuel + 1, retryCount =>
    match attempt retryCount with
    | .ok v => (.ok (some v), retryCount + 1)
    | .error e =>
      if fuel = 0 then (.error e, retryCount + 1)
      else validationLoopGo attempt fuel (retryCount + 1)

/-- The validation retry loop of `addNetwork`, started with `retryCount = 0`. -/
def validationLoop (attempt : Nat → Except String ValidationResult)
    (maxRetries : Nat) : Except String (Option ValidationResult) × Nat :=
  validationLoopGo attempt maxRetries 0

/-- `addNetwork`: runs the validation retry loop, fails with
`invalidConfig errors` when the loop result is missing or not valid, then
builds the new entry (inactive, `lastValidated := now`), fails with `duplicate`
when the name already exists, and otherwise appends the entry and persists.
The second component is the number of validation attempts that were made. -/
def addNetwork (networks : List NetworkConfig) (options : NetworkOptions)
    (attempt : Nat → Except String ValidationResult) (now : Nat) :
    Except NetErr (List NetworkConfig × NetworkConfig) × Nat :=
  let maxRetries := jsOrNat options.retryAttempts 3
  match validationLoop attempt maxRetries with
  | (.error e, k) => (.error (.thrown e), k)
  | (.ok none, k) => (.error (.invalidConfig []), k)
  | (.ok (some v), k) =>
    if v.isValid = false then (.error (.invalidConfig v.errors), k)
    else
      let newNetwork : NetworkConfig :=
        { name := options.name
          rpcUrl := options.rpcUrl
          chainId := jsOrNat options.chainId (v.chainId.getD 0)
          currency := jsOrStr options.currency "ETH"
          explorer := options.explorer
          isTestnet := jsOrFalse options.testnet
          isActive := false
          lastValidated := some now
          timeout := jsOrNat options.timeout 10000
          retryAttempts := jsOrNat options.retryAttempts 3
          benchmarkResults := none }
      if networks.any (fun n => n.name == newNetwork.name) then
        (.error (.duplicate newNetwork.name), k)
      else (.ok (networks ++ [newNetwork], newNetwork), k)

/-! ## Sequences of registry operations (for the single-active invariant) -/

/-- One registry call: `addNetwork`, `switchNetwork` or `removeNetwork`, with
the environment of the call (validation attempts, connectivity probe, clock)
packaged in the operation. -/
inductive RegistryOp where
  | add (options : NetworkOptions) (attempt : Nat → Except String ValidationResult) (now : Nat)
  | switch (name : String) (probe : Except String (Nat × Nat)) (latency : Nat)
  | remove (name : String)

/-- Applies one registry call to the persisted collection; a thrown error
leaves the persisted file unchanged (every operation throws before its
`saveNetworks` write). -/
def applyOp (networks : List NetworkConfig) (op : RegistryOp) : List NetworkConfig :=
  match op with
  | .add options attempt now =>
    match (addNetwork networks options attempt now).1 with
    | .ok (updated, _) => updated
    | .error _ => networks
  | .switch name probe latency =>
    match switchNetwork networks name probe latency with
    | .ok (updated, _) => updated
    | .error _ => networks
  | .remove name =>
    match removeNetwork networks name with
    | .ok updated => updated
    | .error _ => networks

/-- Well-formedness of the persisted registry: names are pairwise distinct
(the data model's `name (unique)` invariant, enforced by `addNetwork`) and at
most one entry is active. -/
def registryInv (networks : List NetworkConfig) : Prop :=
  (networks.map (fun n => n.name)).Nodup ∧
  (networks.filter (fun n => n.isActive)).length ≤ 1

/-! ## NetworkManager.getNetworkStatus (blockchain.ts lines 349-380)

The probe is the joint outcome of the RPC calls issued by the method
(`getBlockNumber`, `getNetwork`, `getGasPrice`, `eth_syncing`,
`net_peerCount`): `ok` carries their values, `error` is any rejection.  On a
rejection the method logs and rethrows; on success it always constructs the
status object with `isConnected: true`. -/

/-- The values returned by the RPC calls of a successful status check. -/
structure StatusProbe where
  blockNumber : Nat
  chainId : Nat
  gasPrice : String
  peers : Nat
  isSyncing : Bool
  deriving Repr, DecidableEq

/-- Result of `NetworkManager.getNetworkStatus` (NetworkStatus). -/
structure NetworkStatus where
  name : String
  isConnected : Bool
  blockNumber : Nat
  gasPrice : String
  chainId : Nat
  peers : Nat
  isSyncing : Bool
  lastChecked : Nat
  deriving Repr, DecidableEq

/-- `getNetworkStatus`: rethrows a failed probe, and on success returns the
status with `isConnected := true`. -/
def getNetworkStatus (name : String) (probe : Except String StatusProbe)
    (now : Nat) : Except String NetworkStatus :=
  match probe with
  | .error e => .error e
  | .ok p =>
    .ok { name := name, isConnected := true, blockNumber := p.blockNumber,
          gasPrice := p.gasPrice, chainId := p.chainId, peers := p.peers,
          isSyncing := p.isSyncing, lastChecked := now }

/-! ## NetworkManager.cleanup (blockchain.ts lines 733-766)

`cleanup` loads a snapshot of the registry, then iterates over it: with a
truthy `inactive` threshold it calls `getNetworkStatus` and removes the
network when the status reports `isConnected === false` (then `continue`s);
with a truthy `unvalidated` threshold and a present `lastValidated` it removes
the network when the validation age in days exceeds the threshold.  The whole
per-network body is wrapped in try/catch whose handler just `continue`s, and
`removeNetwork` reloads the current file, so the evolving collection is
threaded through the iteration while the iteration order follows the initial
snapshot. -/

/-- Thresholds accepted by `cleanup` (both in days). -/
structure CleanupOptions where
  inactive : Option Nat := none
  unvalidated : Option Nat := none
  deriving Repr, DecidableEq

/-- The `unvalidated` branch of the cleanup body: removes the network when the
threshold and `lastValidated` are truthy and
`(now - lastValidated) / 86400000 > unvalidated`. -/
def cleanupUnvalidated (persisted : List NetworkConfig) (now : Nat)
    (options : CleanupOptions) (network : NetworkConfig) :
    Except Unit (List NetworkConfig × Option String) :=
  match options.unvalidated, network.lastValidated with
  | some u, some t =>
    if u ≠ 0 ∧ now - t > u * 86400000 then
      match removeNetwork persisted network.name with
      | .error _ => .error ()
      | .ok updated => .ok (updated, some network.name)
    else .ok (persisted, none)
  | _, _ => .ok (persisted, none)

/-- The per-network body of `cleanup`; `error` is any throw inside the body
(the caught-and-skipped case), `ok` carries the updated persisted collection
and the name pushed onto `removed`, if any. -/
def cleanupOne (persisted : List NetworkConfig)
    (statusProbe : String → Except String StatusProbe) (now : Nat)
    (options : CleanupOptions) (network : NetworkConfig) :
    Except Unit (List NetworkConfig × Option String) :=
  if jsTruthyNat options.inactive then
    match getNetworkStatus network.name (statusProbe network.name) now with
    | .error _ => .error ()
    | .ok status =>
      if status.isConnected = false then
        match removeNetwork persisted network.name with
        | .error _ => .error ()
        | .ok updated => .ok (updated, some network.name)
      else cleanupUnvalidated persisted now options network
  else cleanupUnvalidated persisted now options network

/-- The cleanup iteration over the snapshot, threading the persisted
collection and the `removed` accumulator; a throw in the body skips the
network and continues with the next one. -/
def cleanupGo (statusProbe : String → Except String StatusProbe) (now : Nat)
    (options : CleanupOptions) :
    List NetworkConfig → List NetworkConfig × List String →
    List NetworkConfig × List String
  | [], acc => acc
  | network :: rest, acc =>
    match cleanupOne acc.1 statusProbe now options network with
    | .ok (updated, some nm) => cleanupGo statusProbe now options rest (updated, acc.2 ++ [nm])
    | .ok (updated, none) => cleanupGo statusProbe now options rest (updated, acc.2)
    | .error _ => cleanupGo statusProbe now options rest acc

/-- `cleanup`: iterates the cleanup body over a snapshot of the registry and
returns the final persisted collection together with the removed names. -/
def cleanup (persisted : List NetworkConfig)
    (statusProbe : String → Except String StatusProbe) (now : Nat)
    (options : CleanupOptions) : List NetworkConfig × List String :=
  cleanupGo statusProbe now options persisted (persisted, [])

/-! ## NetworkManager.benchmarkNetwork (blockchain.ts lines 592-641)

The duration-bounded polling loop is modelled by the list of per-call
outcomes observed during the window: `ok ms` is a `getBlockNumber` call that
succeeded after `ms` milliseconds (pushed onto `results`, incrementing
`requestCount`), `error msg` a call that threw (pushed onto `errors`).
`totalTime` is the measured wall-clock duration in seconds. -/

/-- Latency samples of the successful benchmark calls (`results`). -/
def benchSamples (calls : List (Except String Nat)) : List Nat :=
  calls.filterMap Except.toOption

/-- Number of benchmark calls that threw (`errors.length`). -/
def benchErrCount (calls : List (Except String Nat)) : Nat :=
  (calls.filter (fun c => (Except.toOption c).isNone)).length

/-- The aggregate object built at the end of `benchmarkNetwork`;
`requestCount` is incremented exactly when a latency sample is pushed, so it
equals `(benchSamples calls).length`. -/
def benchResult (calls : List (Except String Nat)) (totalTime : Rat) :
    BenchmarkResult :=
  { success := benchErrCount calls == 0
    requestsPerSecond := ((benchSamples calls).length : Rat) / totalTime
    averageLatency :=
      if (benchSamples calls).length > 0 then
        ((benchSamples calls).sum : Rat) / ((benchSamples calls).length : Rat)
      else 0
    maxLatency :=
      if (benchSamples calls).length > 0 then ((benchSamples calls).max?).getD 0 else 0
    minLatency :=
      if (benchSamples calls).length > 0 then ((benchSamples calls).min?).getD 0 else 0
    errorRate :=
      if (benchSamples calls).length > 0 then
        (benchErrCount calls : Rat) / ((benchSamples calls).length : Rat)
      else 1 }

/-- Writes the benchmark result onto the first registry entry with the given
name (the object mutated in the loaded array before `saveNetworks`). -/
def storeBenchmark (networks : List NetworkConfig) (name : String)
    (r : BenchmarkResult) : List NetworkConfig :=
  match networks with
  | [] => []
  | n :: rest =>
    if n.name == name then { n with benchmarkResults := some r } :: rest
    else n :: storeBenchmark rest name r

/-- `benchmarkNetwork`: throws `notFound` when the name is not registered
(`getProvider` and the explicit existence check), otherwise aggregates the
call outcomes, persists the result onto the entry and returns it. -/
def benchmarkNetwork (networks : List NetworkConfig) (name : String)
    (calls : List (Except String Nat)) (totalTime : Rat) :
    Except NetErr (List NetworkConfig × BenchmarkResult) :=
  match networks.find? (fun n => n.name == name) with
  | none => .error (.notFound name)
  | some _ =>
    .ok (storeBenchmark networks name (benchResult calls totalTime),
         benchResult calls totalTime)

/-! ## NetworkManager.validateNetwork (blockchain.ts lines 400-501)

The probe packages the outcomes of the RPC calls of one validation attempt:
* `getNetwork` is `Promise.race([provider.getNetwork(), timeout])`, yielding
  the remote chain id or a rejection message;
* `core` is `Promise.all([getBlockNumber, getGasPrice])` (block number and gas
  price in wei);
* `latencyProbe` is the timed second `getBlockNumber` call (duration in ms).

A rejection inside the inner checks lands in the warnings; a rejection of the
connection phase is classified into one of four error messages.  The
`options.maxGasPrice` string is modelled already parsed to gwei (a parse
failure of the real code would land in the same `Additional checks failed`
warning as any other inner throw). -/

/-- The RPC outcomes of one validation attempt. -/
structure ValidateProbe where
  getNetwork : Except String Nat
  core : Except String (Nat × Nat)
  latencyProbe : Except String Nat
  deriving Repr

/-- The connection-phase error classification of `validateNetwork`. -/
def classifyConnError (msg : String) : String :=
  if strIncludes msg "timeout" then
    "Connection timed out. The RPC endpoint might be down or responding slowly."
  else if strIncludes msg "getaddrinfo" then
    "DNS resolution failed. Please check if the RPC URL is correct."
  else if strIncludes msg "ECONNREFUSED" then
    "Connection refused. The RPC endpoint might be down or blocking requests."
  else "Connection failed: " ++ msg

/-- Left-pads a decimal string with zeros to the given width. -/
def padLeftZeros (s : String) (n : Nat) : String :=
  String.mk (List.replicate (n - s.length) '0') ++ s

/-- Drops trailing zero digits. -/
def dropTrailingZeros (s : String) : String :=
  String.mk ((s.toList.reverse.dropWhile (fun c => c = '0')).reverse)

/-- `ethers.utils.formatUnits(wei, 'gwei')`: decimal gwei rendering with the
fractional part trimmed of trailing zeros but never empty. -/
def formatGwei (wei : Nat) : String :=
  let whole := wei / 1000000000
  let frac := dropTrailingZeros (padLeftZeros (toString (wei % 1000000000)) 9)
  toString whole ++ "." ++ (if frac = "" then "0" else frac)

/-- `validateNetwork`: one attempt against the probe.  `isValid` is computed
as `errors.length === 0` at the single return site; with a truthy expected
chain id a mismatch is an error, while a zero block height, latency above
1000 ms and a gas price above the supplied ceiling are warnings.  A remote
chain id of `0` is falsy, skipping every additional check. -/
def validateNetwork (options : NetworkOptions) (probe : ValidateProbe) :
    ValidationResult :=
  match probe.getNetwork with
  | .error msg =>
    let errors := [classifyConnError msg]
    { isValid := errors.isEmpty, chainId := none, errors := errors,
      warnings := [], latency := none }
  | .ok chainId =>
    if chainId = 0 then
      { isValid := ([] : List String).isEmpty, chainId := some 0, errors := [],
        warnings := [], latency := none }
    else
      match probe.core with
      | .error msg =>
        { isValid := ([] : List String).isEmpty, chainId := some chainId,
          errors := [], warnings := ["Additional checks failed: " ++ msg],
          latency := none }
      | .ok (blockNumber, gasPrice) =>
        let errors :=
          match options.chainId with
          | some c =>
            if c ≠ 0 ∧ c ≠ chainId then
              ["Chain ID mismatch: expected " ++ toString c ++ ", got " ++ toString chainId]
            else []
          | none => []
        let warningsBlock :=
          if blockNumber = 0 then ["Network might be inactive (block number is 0)"] else []
        match probe.latencyProbe with
        | .error msg =>
          { isValid := errors.isEmpty, chainId := some chainId, errors := errors,
            warnings := warningsBlock ++ ["Additional checks failed: " ++ msg],
            latency := none }
        | .ok lat =>
          let warningsLatency :=
            if lat > 1000 then ["High latency detected: " ++ toString lat ++ "ms"] else []
          let warningsGas :=
            match options.maxGasPrice with
            | some g =>
              if gasPrice > g * 1000000000 then
                ["Current gas price (" ++ formatGwei gasPrice ++ " gwei) exceeds specified maximum"]
              else []
            | none => []
          { isValid := errors.isEmpty, chainId := some chainId, errors := errors,
            warnings := warningsBlock ++ warningsLatency ++ warningsGas,
            latency := some lat }

/-! ## BlockchainManager (blockchain.ts lines 27-176): wallet derivation

The cryptographic primitives (bip39, bip32, tiny-secp256k1, the p2wpkh
payment and the ethers wallet constructors) are external libraries; the
derivers are modelled as functions of those primitives, quantified over in
the theorems.  Byte strings are lists of byte values. -/

/-- A secp256k1 key pair as exposed by bip32 children and `ECPair.makeRandom`
(`privateKey` may be absent, which the code checks). -/
structure KeyPair where
  privateKey : Option (List Nat)
  publicKey : List Nat
  deriving Repr, DecidableEq

/-- The external Bitcoin primitives used by `generateBitcoinWallet`:
`generateMnemonic` is `bip39.generateMnemonic()`, `mnemonicToSeed` the seed
derivation, `deriveChild` the bip32 walk `fromSeed` + `derivePath` along the
hardened BIP84 path (purpose 84, coin 0, account 0, change 0, index 0), and
`p2wpkh` the native-segwit address of a public key (absent when the payment
yields none).  `makeRandom` is `ECPair.makeRandom()`. -/
structure BtcPrims where
  generateMnemonic : String
  mnemonicToSeed : String → List Nat
  deriveChild : List Nat → KeyPair
  makeRandom : KeyPair
  p2wpkh : List Nat → Option String

/-- A wallet as returned by the per-chain generators. -/
structure BlockchainWallet where
  address : String
  privateKey : String
  mnemonic : Option String
  deriving Repr, DecidableEq

/-- A hexadecimal digit character. -/
def hexDigitChar (n : Nat) : Char :=
  if n < 10 then Char.ofNat (48 + n) else Char.ofNat (87 + n)

/-- `Buffer.from(bytes).toString('hex')`. -/
def bytesToHex (bs : List Nat) : String :=
  String.mk (bs.foldr (fun b acc => hexDigitChar (b / 16 % 16) :: hexDigitChar (b % 16) :: acc) [])

/-- `BlockchainManager.generateBitcoinWallet` (lines 83-130): with a mnemonic,
generate one, derive the BIP84 child from its seed and build the p2wpkh
address, returning the mnemonic; without one, use a random key pair and
return `mnemonic := undefined`.  A missing private key or address throws. -/
def generateBitcoinWallet (prims : BtcPrims) (useMnemonic : Bool) :
    Except String BlockchainWallet :=
  if useMnemonic then
    let mnemonic := prims.generateMnemonic
    let child := prims.deriveChild (prims.mnemonicToSeed mnemonic)
    match child.privateKey with
    | none => .error "Failed to generate Bitcoin private key"
    | some priv =>
      match prims.p2wpkh child.publicKey with
      | none => .error "Failed to generate Bitcoin address"
      | some address =>
        .ok { address := address, privateKey := bytesToHex priv, mnemonic := some mnemonic }
  else
    let keyPair := prims.makeRandom
    match keyPair.privateKey with
    | none => .error "Failed to generate Bitcoin private key"
    | some priv =>
      match prims.p2wpkh keyPair.publicKey with
      | none => .error "Failed to generate Bitcoin address"
      | some address =>
        .ok { address := address, privateKey := bytesToHex priv, mnemonic := none }

/-- An ethers wallet object (`wallet.mnemonic?.phrase` is optional; it is
populated by `ethers.Wallet.createRandom()` and absent on a wallet built from
raw random bytes). -/
structure EthersWallet where
  address : String
  privateKey : String
  mnemonic : Option String
  deriving Repr, DecidableEq

/-- `BlockchainManager.generateEVMWallet` (lines 132-144): picks
`createRandom` with a mnemonic, the raw-key wallet without one, and returns
the mnemonic phrase only in the mnemonic branch. -/
def generateEVMWallet (createRandom fromKey : EthersWallet) (useMnemonic : Bool) :
    BlockchainWallet :=
  let wallet := if useMnemonic then createRandom else fromKey
  { address := wallet.address
    privateKey := wallet.privateKey
    mnemonic := if useMnemonic then wallet.mnemonic else none }

/-- One persisted wallet record (WalletData in src/types/wallet.ts). -/
structure WalletData where
  name : String
  network : String
  address : String
  privateKey : String
  mnemonic : Option String := none
  createdAt : String := ""
  deriving Repr, DecidableEq

/-- The EVM-compatible network keys registered by `initializeNetworks`. -/
def evmNetworks : List String :=
  ["ethereum", "polygon", "bsc", "arbitrum", "optimism", "avalanche"]

/-- All keys of the `supportedNetworks` map (bitcoin plus the EVM chains). -/
def supportedNetworkNames : List String :=
  "bitcoin" :: evmNetworks

/-- `BlockchainManager.createWallet` (lines 146-163): looks the lowercased
network up in the `supportedNetworks` map, throws the unsupported-network
error when absent, and otherwise runs the registered generator closure
(lines 35-81), which stamps name, network key and creation time onto the
derived wallet. -/
def createWallet (walletName network : String) (useMnemonic : Bool)
    (btc : BtcPrims) (createRandom fromKey : EthersWallet) (now : String) :
    Except String WalletData :=
  let key := strToLower network
  if key == "bitcoin" then
    match generateBitcoinWallet btc useMnemonic with
    | .error e => .error e
    | .ok w =>
      .ok { name := walletName, network := "bitcoin", address := w.address,
            privateKey := w.privateKey, mnemonic := w.mnemonic, createdAt := now }
  else if evmNetworks.contains key then
    let w := generateEVMWallet createRandom fromKey useMnemonic
    .ok { name := walletName, network := key, address := w.address,
          privateKey := w.privateKey, mnemonic := w.mnemonic, createdAt := now }
  else .error ("Unsupported blockchain network: " ++ network)

/-! ## WalletManager (src/core/wallet/manager.ts): listing and import

The wallet store is the list of records found in the wallet directory.  The
creation-date filter branch of `matchesFilter` (a parsed-date cutoff) is not
modelled: no claim involves it and the import path never passes a date. -/

/-- The filter understood by `listWallets` / `findWallets` (WalletFilter). -/
structure WalletFilter where
  name : Option String := none
  network : Option String := none
  hash : Option String := none
  deriving Repr, DecidableEq

/-- `WalletManager.matchesFilter` (lines 98-112): provided (truthy) filters
must all hold; the network must match exactly, while name and address are
substring matches (`includes`), the address case-insensitively. -/
def matchesFilter (wallet : WalletData) (filter : WalletFilter) : Bool :=
  (match filter.network with
   | some net => net == "" || wallet.network == net
   | none => true) &&
  (match filter.name with
   | some nm => nm == "" || strIncludes wallet.name nm
   | none => true) &&
  (match filter.hash with
   | some h => h == "" || strIncludes (strToLower wallet.address) (strToLower h)
   | none => true)

/-- `findWallets` = `listWallets(filter)`: the records matching the filter. -/
def findWallets (store : List WalletData) (filter : WalletFilter) :
    List WalletData :=
  store.filter (fun w => matchesFilter w filter)

/-- `WalletManager.walletExists` (lines 211-218): whether
`findWallets(\x7b name, network \x7d)` is non-empty (errors are caught into
`false`; the pure model cannot fail). -/
def walletExists (store : List WalletData) (name network : String) : Bool :=
  !(findWallets store { name := some name, network := some network }).isEmpty

/-- The filename a record is saved under:
`name-network-<first 8 address chars>` (the extension is constant here). -/
def walletFileKey (w : WalletData) : String :=
  w.name ++ "-" ++ w.network ++ "-" ++ strTake w.address 8

/-- `WalletManager.saveWallet` (lines 337-351): writes the record to its
filename, replacing an existing file with the same name. -/
def saveWallet (store : List WalletData) (w : WalletData) : List WalletData :=
  if store.any (fun x => walletFileKey x == walletFileKey w) then
    store.map (fun x => if walletFileKey x == walletFileKey w then w else x)
  else store ++ [w]

/-- Options of `importWallets` (WalletImportOptions): the target network and
the overwrite flag (the source file path is replaced by the parsed records). -/
structure ImportOptions where
  network : String
  overwrite : Bool
  deriving Repr, DecidableEq

/-- One iteration of the import loop (lines 182-202): a record whose name
already exists on the target network is skipped (counted) unless `overwrite`;
otherwise it is saved and counted as imported.  The per-record try/catch
cannot fire in the pure model (`saveWallet` is total). -/
def importStep (options : ImportOptions)
    (acc : List WalletData × Nat × Nat) (wallet : WalletData) :
    List WalletData × Nat × Nat :=
  let store := acc.1
  let imported := acc.2.1
  let skipped := acc.2.2
  if walletExists store wallet.name options.network && !options.overwrite then
    (store, imported, skipped + 1)
  else
    (saveWallet store wallet, imported + 1, skipped)

/-- `WalletManager.importWallets` (lines 166-209): folds the import loop over
the parsed records, returning the final store with the
`(imported, skipped)` counters. -/
def importWallets (store : List WalletData) (records : List WalletData)
    (options : ImportOptions) : List WalletData × Nat × Nat :=
  records.foldl (importStep options) (store, 0, 0)

/-! ## Theorems -/

/-- In a list whose names are pairwise distinct, at most one entry carries any
given name. -/
lemma filter_name_le_one (l : List NetworkConfig) (t : String)
    (h : (l.map (fun n => n.name)).Nodup) :
    (l.filter (fun n => n.name == t)).length ≤ 1 := by
  induction l with
  | nil => simp
  | cons a l ih =>
    simp only [List.map_cons, List.nodup_cons] at h
    obtain ⟨ha, hl⟩ := h
    by_cases hat : a.name == t
    · have hnone : l.filter (fun n => n.name == t) = [] := by
        rw [List.filter_eq_nil_iff]
        intro b hb hbt
        exact ha (List.mem_map.mpr ⟨b, hb,
          by rw [beq_iff_eq] at hat hbt; rw [hbt, hat]⟩)
      simp [List.filter_cons, hat, hnone]
    · simpa [List.filter_cons, hat] using ih hl

/-- Appending an inactive entry with a fresh name preserves the registry
invariant. -/
lemma registryInv_append_inactive (l : List NetworkConfig) (nw : NetworkConfig)
    (hinv : registryInv l) (hname : l.any (fun n => n.name == nw.name) = false)
    (hact : nw.isActive = false) : registryInv (l ++ [nw]) := by
  obtain ⟨hnd, hle⟩ := hinv
  constructor
  · rw [List.map_append]
    refine List.Nodup.append hnd (by simp) ?_
    intro x hx hx'
    simp only [List.map_cons, List.map_nil, List.mem_singleton] at hx'
    subst hx'
    obtain ⟨b, hb, hbn⟩ := List.mem_map.mp hx
    rw [List.any_eq_false] at hname
    exact hname b hb (by rw [beq_iff_eq]; exact hbn)
  · rw [List.filter_append]
    simpa [List.filter_cons, hact] using hle

/-- Shape of a successful `addNetwork`: the persisted collection gains exactly
the new (inactive, fresh-named) entry at the end. -/
lemma addNetwork_ok_shape (networks : List NetworkConfig)
    (options : NetworkOptions) (attempt : Nat → Except String ValidationResult)
    (now : Nat) (updated : List NetworkConfig) (nw : NetworkConfig)
    (h : (addNetwork networks options attempt now).1 = .ok (updated, nw)) :
    updated = networks ++ [nw] ∧ nw.isActive = false ∧
      networks.any (fun n => n.name == nw.name) = false := by
  unfold addNetwork at h
  dsimp only at h
  rcases hvl : validationLoop attempt (jsOrNat options.retryAttempts 3) with ⟨res, kk⟩
  rw [hvl] at h
  rcases res with e | ov
  · simp at h
  rcases ov with _ | v
  · simp at h
  dsimp only at h
  by_cases hv : v.isValid = false
  · simp [hv] at h
  · rw [if_neg hv] at h
    by_cases hdup : networks.any (fun n => n.name == options.name) = true
    · simp [hdup] at h
    · rw [Bool.not_eq_true] at hdup
      simp only [hdup, Bool.false_eq_true, if_false, Prod.fst] at h
      rw [Except.ok.injEq, Prod.mk.injEq] at h
      obtain ⟨hu, hn⟩ := h
      subst hn
      exact ⟨hu.symm, rfl, hdup⟩

/-- Shape of a successful `switchNetwork`: the persisted collection is the
input with the active flag set on exactly the entries carrying the target
name. -/
lemma switchNetwork_ok_shape (networks : List NetworkConfig) (name : String)
    (probe : Except String (Nat × Nat)) (lat : Nat)
    (updated : List NetworkConfig) (res : SwitchResult)
    (h : switchNetwork networks name probe lat = .ok (updated, res)) :
    updated = networks.map (fun n => { n with isActive := n.name == name }) := by
  unfold switchNetwork at h
  rcases hf : networks.find? (fun n => n.name == name) with _ | n
  · rw [hf] at h; simp at h
  · rw [hf] at h
    simp only [Except.ok.injEq, Prod.mk.injEq] at h
    exact h.1.symm

/-- The active entries after a switch are the entries carrying the target
name. -/
lemma length_filter_isActive_map (l : List NetworkConfig) (name : String) :
    ((l.map (fun n => { n with isActive := n.name == name })).filter
      (fun n => n.isActive)).length
      = (l.filter (fun n => n.name == name)).length := by
  induction l with
  | nil => rfl
  | cons a l ih =>
    by_cases h : a.name == name <;>
      simp [List.filter_cons, h, ih]

/-- Switching preserves the registry invariant. -/
lemma registryInv_switch (l : List NetworkConfig) (name : String)
    (hinv : registryInv l) :
    registryInv (l.map (fun n => { n with isActive := n.name == name })) := by
  obtain ⟨hnd, _⟩ := hinv
  have hnames : (l.map (fun n => { n with isActive := n.name == name })).map
      (fun n => n.name) = l.map (fun n => n.name) := by
    rw [List.map_map]
    exact List.map_congr_left (fun a _ => rfl)
  constructor
  · rw [hnames]; exact hnd
  · rw [length_filter_isActive_map]
    exact filter_name_le_one l name hnd

/-- Erasing an entry preserves the registry invariant. -/
lemma registryInv_eraseP (l : List NetworkConfig) (p : NetworkConfig → Bool)
    (hinv : registryInv l) : registryInv (l.eraseP p) := by
  obtain ⟨hnd, hle⟩ := hinv
  have hsub : List.Sublist (l.eraseP p) l := List.eraseP_sublist l
  exact ⟨hnd.sublist (hsub.map _), le_trans (hsub.filter _).length_le hle⟩

/-- Every single registry call preserves the invariant. -/
lemma applyOp_preserves (l : List NetworkConfig) (op : RegistryOp)
    (hinv : registryInv l) : registryInv (applyOp l op) := by
  cases op with
  | add options attempt now =>
    simp only [applyOp]
    rcases h : (addNetwork l options attempt now).1 with e | ⟨updated, nw⟩
    · exact hinv
    · obtain ⟨hu, hact, hfresh⟩ := addNetwork_ok_shape l options attempt now updated nw h
      subst hu
      exact registryInv_append_inactive l nw hinv hfresh hact
  | switch name probe lat =>
    simp only [applyOp]
    rcases h : switchNetwork l name probe lat with e | ⟨updated, res⟩
    · exact hinv
    · rw [switchNetwork_ok_shape l name probe lat updated res h]
      exact registryInv_switch l name hinv
  | remove name =>
    simp only [applyOp]
    rcases h : removeNetwork l name with e | updated
    · exact hinv
    · unfold removeNetwork at h
      rcases hf : l.find? (fun n => n.name == name) with _ | n
      · rw [hf] at h; simp at h
      · rw [hf] at h
        by_cases hact : n.isActive
        · simp [hact] at h
        · simp only [hact, Bool.false_eq_true, if_false, Except.ok.injEq] at h
          rw [← h]
          exact registryInv_eraseP l _ hinv

/-- Every sequence of registry calls preserves the invariant. -/
lemma foldl_applyOp_preserves (ops : List RegistryOp)
    (l : List NetworkConfig) (hinv : registryInv l) :
    registryInv (ops.foldl applyOp l) := by
  induction ops generalizing l with
  | nil => exact hinv
  | cons op ops ih => exact ih (applyOp l op) (applyOp_preserves l op hinv)

/-- In a registry with pairwise distinct names, looking a member up by its own
name finds that member. -/
lemma find_name_self (l : List NetworkConfig)
    (hnd : (l.map (fun n => n.name)).Nodup) (n : NetworkConfig) (hn : n ∈ l) :
    l.find? (fun x => x.name == n.name) = some n := by
  rcases hf : l.find? (fun x => x.name == n.name) with _ | m
  · rw [List.find?_eq_none] at hf
    exact absurd (by simp : (n.name == n.name) = true) (hf n hn)
  · have hm : m ∈ l := List.mem_of_find?_eq_some hf
    have hname : m.name = n.name := by
      have := List.find?_some hf
      rwa [beq_iff_eq] at this
    have heq := List.inj_on_of_nodup_map hnd hm hn hname
    rw [heq] at hf
    exact hf

/-- C1: starting from a well-formed registry (pairwise distinct names, at most
one active entry), after any sequence of `addNetwork` / `switchNetwork` /
`removeNetwork` calls the persisted collection still has at most one entry
with `isActive = true`, and `removeNetwork` applied to the currently active
network always fails with the cannot-remove-active error, leaving the
collection unchanged. -/
theorem registry_single_active_invariant (start : List NetworkConfig)
    (hinv : registryInv start) (ops : List RegistryOp) :
    ((ops.foldl applyOp start).filter (fun n => n.isActive)).length ≤ 1 ∧
    ∀ n ∈ ops.foldl applyOp start, n.isActive = true →
      removeNetwork (ops.foldl applyOp start) n.name = .error .cannotRemoveActive ∧
      applyOp (ops.foldl applyOp start) (.remove n.name) = ops.foldl applyOp start := by
  have hfinal := foldl_applyOp_preserves ops start hinv
  refine ⟨hfinal.2, ?_⟩
  intro n hn hact
  have hfind := find_name_self _ hfinal.1 n hn
  have hrem : removeNetwork (ops.foldl applyOp start) n.name =
      .error .cannotRemoveActive := by
    simp only [removeNetwork, hfind, hact, if_true]
  refine ⟨hrem, ?_⟩
  simp only [applyOp]
  rw [hrem]

/-- Witness for C1 at a concrete registry: one active network named `main`,
one failed remove of an unknown name; removing `main` afterwards still fails
with the cannot-remove-active error. -/
def cfgActiveW : NetworkConfig :=
  { name := "main", rpcUrl := "http://localhost:8545", chainId := 1,
    currency := "ETH", isActive := true }

theorem registry_single_active_invariant_witness :
    removeNetwork ([RegistryOp.remove "ghost"].foldl applyOp [cfgActiveW]) "main" =
      .error .cannotRemoveActive := by
  have h := (registry_single_active_invariant [cfgActiveW]
    ⟨by decide, by decide⟩ [RegistryOp.remove "ghost"]).2
  have hmem : cfgActiveW ∈ [RegistryOp.remove "ghost"].foldl applyOp [cfgActiveW] := by
    decide
  simpa using (h cfgActiveW hmem (by decide)).1

/-- An active registry entry for the switch scenario. -/
def cfgA : NetworkConfig :=
  { name := "A", rpcUrl := "http://a.example", chainId := 1,
    currency := "ETH", isActive := true }

/-- An inactive registry entry for the switch scenario. -/
def cfgB : NetworkConfig :=
  { name := "B", rpcUrl := "http://b.example", chainId := 2,
    currency := "ETH", isActive := false }

/-- C2: the pre-switch connectivity test of `switchNetwork` runs before the
write, but its result object is never consulted and `testNetwork` never
rejects: with a probe that fails (test result `success = false`), switching
to `B` still commits, marking `B` active and persisting the collection.  This
contradicts the claim that a network whose pre-switch test fails is never
marked active. -/
theorem switchNetwork_commits_despite_failed_test :
    (testNetwork (.error "connect ECONNREFUSED") 0).success = false ∧
    switchNetwork [cfgA, cfgB] "B" (.error "connect ECONNREFUSED") 0 =
      .ok ([{ cfgA with isActive := false }, { cfgB with isActive := true }],
        { previousNetwork := some "A", newNetwork := "B", success := true }) := by
  exact ⟨rfl, rfl⟩

/-- With validation attempts that always reject, the retry loop makes exactly
`fuel` attempts (for positive fuel) and rethrows the last rejection. -/
lemma validationLoopGo_all_errors (attempt : Nat → Except String ValidationResult)
    (msgs : Nat → String) (h : ∀ k, attempt k = .error (msgs k)) :
    ∀ fuel rc, 1 ≤ fuel →
      validationLoopGo attempt fuel rc = (.error (msgs (rc + fuel - 1)), rc + fuel) := by
  intro fuel
  induction fuel with
  | zero => intro rc h0; exact absurd h0 (by omega)
  | succ f ih =>
    intro rc _
    simp only [validationLoopGo, h rc]
    by_cases hf : f = 0
    · subst hf; simp
    · rw [if_neg hf, ih (rc + 1) (by omega)]
      have h1 : rc + 1 + f - 1 = rc + (f + 1) - 1 := by omega
      have h2 : rc + 1 + f = rc + (f + 1) := by omega
      rw [h1, h2]

/-- The `|| 3` default makes the retry bound always positive. -/
lemma jsOrNat_pos (o : Option Nat) : 1 ≤ jsOrNat o 3 := by
  cases o with
  | none => simp [jsOrNat]
  | some n =>
    by_cases h : n = 0
    · simp [jsOrNat, h]
    · simp only [jsOrNat, if_neg h]
      omega

/-- C3 (amended): the retry loop of `addNetwork` retries only validation
attempts whose promise rejects (which `validateNetwork` essentially never
does, since it catches connection failures into its error list): an attempt
that resolves with `isValid = false` is not retried — the
invalid-network-configuration error listing the reasons surfaces after that
single attempt — while rejecting attempts are retried up to `retryAttempts`
(default 3) times, after which the last rejection itself is rethrown. -/
theorem addNetwork_retry_only_on_rejection (networks : List NetworkConfig)
    (options : NetworkOptions) (attempt : Nat → Except String ValidationResult)
    (now : Nat) :
    (∀ v, attempt 0 = .ok v → v.isValid = false →
      addNetwork networks options attempt now =
        (.error (.invalidConfig v.errors), 1)) ∧
    (∀ msgs : Nat → String, (∀ k, attempt k = .error (msgs k)) →
      addNetwork networks options attempt now =
        (.error (.thrown (msgs (jsOrNat options.retryAttempts 3 - 1))),
          jsOrNat options.retryAttempts 3)) := by
  constructor
  · intro v h0 hinv
    obtain ⟨m, hm⟩ : ∃ m, jsOrNat options.retryAttempts 3 = m + 1 :=
      ⟨jsOrNat options.retryAttempts 3 - 1,
        by have := jsOrNat_pos options.retryAttempts; omega⟩
    unfold addNetwork
    dsimp only
    rw [hm]
    simp only [validationLoop, validationLoopGo, h0, hinv, if_true]
  · intro msgs hall
    have hpos := jsOrNat_pos options.retryAttempts
    unfold addNetwork
    dsimp only
    simp only [validationLoop]
    rw [validationLoopGo_all_errors attempt msgs hall _ 0 hpos]
    simp

/-- Witness for the amended C3 theorem at a concrete always-rejecting
attempt oracle: with the default retry bound, three attempts are made and the
last rejection is rethrown. -/
theorem addNetwork_retry_only_on_rejection_witness :
    addNetwork [] { name := "n1", rpcUrl := "http://n1.example" }
        (fun k => .error (toString k)) 0 =
      (.error (.thrown (toString ((2 : Nat)))),
        jsOrNat (none : Option Nat) 3) :=
  (addNetwork_retry_only_on_rejection [] { name := "n1", rpcUrl := "http://n1.example" }
    (fun k => .error (toString k)) 0).2 (fun k => toString k) (fun _ => rfl)

/-- The validation outcome of the C3 scenario: the attempt resolves (the
promise does not reject) but reports the configuration invalid. -/
def invalidHttpRes : ValidationResult :=
  { isValid := false, chainId := none,
    errors := ["Connection timed out. The RPC endpoint might be down or responding slowly."],
    warnings := [], latency := none }

/-- Options of the C3 scenario (`retryAttempts` omitted, so the default 3
applies). -/
def optsLocal : NetworkOptions :=
  { name := "local", rpcUrl := "http://127.0.0.1:8545" }

/-- C3 counterexample: with every validation attempt resolving to an invalid
result, `addNetwork` makes exactly one attempt — not the claimed bounded
retry count of three — and surfaces the invalid-configuration error
immediately. -/
theorem addNetwork_no_retry_on_invalid_result :
    addNetwork [] optsLocal (fun _ => .ok invalidHttpRes) 0 =
      (.error (.invalidConfig
        ["Connection timed out. The RPC endpoint might be down or responding slowly."]), 1) := by
  rfl

/-- A cleanup step over options with no `unvalidated` threshold either throws
(and is skipped) or leaves the persisted collection untouched. -/
lemma cleanupOne_unvalidated_none (persisted : List NetworkConfig)
    (statusProbe : String → Except String StatusProbe) (now : Nat)
    (inactiveDays : Option Nat) (network : NetworkConfig) :
    cleanupOne persisted statusProbe now
        { inactive := inactiveDays, unvalidated := none } network = .error () ∨
    cleanupOne persisted statusProbe now
        { inactive := inactiveDays, unvalidated := none } network =
      .ok (persisted, none) := by
  unfold cleanupOne
  by_cases hio : jsTruthyNat inactiveDays
  · rw [if_pos hio]
    cases hp : statusProbe network.name with
    | error e => left; simp [getNetworkStatus]
    | ok p => right; simp [getNetworkStatus, cleanupUnvalidated]
  · rw [if_neg hio]
    right
    simp [cleanupUnvalidated]

/-- The cleanup iteration over options with no `unvalidated` threshold leaves
the accumulator unchanged. -/
lemma cleanupGo_unvalidated_none (statusProbe : String → Except String StatusProbe)
    (now : Nat) (inactiveDays : Option Nat) :
    ∀ (l : List NetworkConfig) (acc : List NetworkConfig × List String),
      cleanupGo statusProbe now { inactive := inactiveDays, unvalidated := none } l acc = acc := by
  intro l
  induction l with
  | nil => intro acc; rfl
  | cons network rest ih =>
    intro acc
    rcases cleanupOne_unvalidated_none acc.1 statusProbe now inactiveDays network with h | h <;>
      simp only [cleanupGo, h] <;> exact ih acc

/-- C4 (amended): a successful `getNetworkStatus` always reports
`isConnected = true`, so the removal branch of cleanup's `inactive` criterion
is unreachable: a network whose live status check fails raises an error that
the per-network try/catch swallows, skipping the network (neither removed nor
fatal) and continuing with the next one; consequently a cleanup run with only
the `inactive` threshold removes nothing and returns an empty removed list. -/
theorem cleanup_status_failure_skips_network :
    (∀ (name : String) (probe : Except String StatusProbe) (now : Nat)
        (s : NetworkStatus),
      getNetworkStatus name probe now = .ok s → s.isConnected = true) ∧
    (∀ (persisted : List NetworkConfig)
        (statusProbe : String → Except String StatusProbe) (now : Nat)
        (inactiveDays : Option Nat),
      cleanup persisted statusProbe now
        { inactive := inactiveDays, unvalidated := none } = (persisted, [])) ∧
    (∀ (statusProbe : String → Except String StatusProbe) (now : Nat)
        (options : CleanupOptions) (network : NetworkConfig)
        (rest : List NetworkConfig) (acc : List NetworkConfig × List String),
      cleanupOne acc.1 statusProbe now options network = .error () →
      cleanupGo statusProbe now options (network :: rest) acc =
        cleanupGo statusProbe now options rest acc) := by
  refine ⟨?_, ?_, ?_⟩
  · intro name probe now s h
    cases probe with
    | error e => simp [getNetworkStatus] at h
    | ok p =>
      simp only [getNetworkStatus, Except.ok.injEq] at h
      rw [← h]
  · intro persisted statusProbe now inactiveDays
    unfold cleanup
    exact cleanupGo_unvalidated_none statusProbe now inactiveDays persisted (persisted, [])
  · intro statusProbe now options network rest acc h
    simp only [cleanupGo, h]

/-- A concrete status-probe outcome and the status built from it, witnessing
the first conjunct of the amended C4 theorem. -/
def probeW : StatusProbe :=
  { blockNumber := 100, chainId := 1, gasPrice := "12.5", peers := 4, isSyncing := false }

/-- The status `getNetworkStatus` builds from `probeW`. -/
def statusW : NetworkStatus :=
  { name := "net", isConnected := true, blockNumber := 100, gasPrice := "12.5",
    chainId := 1, peers := 4, isSyncing := false, lastChecked := 5 }

/-- Witness for the amended C4 theorem at concrete inputs. -/
theorem cleanup_status_failure_skips_network_witness :
    statusW.isConnected = true ∧
    cleanup [cfgA] (fun _ => .error "connect ECONNREFUSED") 0
      { inactive := some 30, unvalidated := none } = ([cfgA], []) :=
  ⟨cleanup_status_failure_skips_network.1 "net" (.ok probeW) 5 statusW (by rfl),
   cleanup_status_failure_skips_network.2.1 [cfgA]
     (fun _ => .error "connect ECONNREFUSED") 0 (some 30)⟩

/-- A registry entry whose endpoint is unreachable in the C4 scenario. -/
def cfgDead : NetworkConfig :=
  { name := "dead", rpcUrl := "http://dead.example", chainId := 9, currency := "ETH" }

/-- C4 counterexample: with an `inactive` threshold and a status probe that
fails connectivity (the status call rejects), `cleanup` removes nothing and
returns an empty removed list — the claim expects the network to be removed
and its name listed. -/
theorem cleanup_failing_network_not_removed :
    cleanup [cfgDead] (fun _ => .error "connect ECONNREFUSED") 0
        { inactive := some 30, unvalidated := none } = ([cfgDead], []) ∧
    ¬ "dead" ∈ (cleanup [cfgDead] (fun _ => .error "connect ECONNREFUSED") 0
        { inactive := some 30, unvalidated := none }).2 := by
  refine ⟨rfl, ?_⟩
  intro hmem
  rw [show (cleanup [cfgDead] (fun _ => .error "connect ECONNREFUSED") 0
      { inactive := some 30, unvalidated := none }).2 = [] from rfl] at hmem
  exact List.not_mem_nil _ hmem

/-- C5: for both the Bitcoin deriver and the EVM deriver, the returned wallet
record contains a mnemonic exactly when it was created with phrase-based
derivation (`useMnemonic = true`); the non-mnemonic branches return no
mnemonic field.  For the EVM deriver this relies on the ethers guarantee that
`Wallet.createRandom()` carries a mnemonic phrase, taken as a hypothesis. -/
theorem wallet_mnemonic_iff_phrase_derivation :
    (∀ (prims : BtcPrims) (useMnemonic : Bool) (w : BlockchainWallet),
      generateBitcoinWallet prims useMnemonic = .ok w →
      w.mnemonic.isSome = useMnemonic) ∧
    (∀ (createRandom fromKey : EthersWallet) (useMnemonic : Bool),
      createRandom.mnemonic.isSome = true →
      (generateEVMWallet createRandom fromKey useMnemonic).mnemonic.isSome = useMnemonic) := by
  constructor
  · intro prims useMnemonic w h
    unfold generateBitcoinWallet at h
    split at h
    · rename_i hm
      dsimp only at h
      split at h
      · exact absurd h (by simp)
      · split at h
        · exact absurd h (by simp)
        · simp only [Except.ok.injEq] at h
          rw [← h, hm]
          rfl
    · rename_i hm
      dsimp only at h
      split at h
      · exact absurd h (by simp)
      · split at h
        · exact absurd h (by simp)
        · simp only [Except.ok.injEq] at h
          rw [Bool.not_eq_true] at hm
          rw [← h, hm]
          rfl
  · intro createRandom fromKey useMnemonic hcr
    cases useMnemonic
    · rfl
    · simpa [generateEVMWallet] using hcr

/-- Concrete Bitcoin primitives for the C5 witness. -/
def btcPrimsW : BtcPrims :=
  { generateMnemonic := "test words"
    mnemonicToSeed := fun _ => [1]
    deriveChild := fun _ => { privateKey := some [2], publicKey := [3] }
    makeRandom := { privateKey := some [4], publicKey := [5] }
    p2wpkh := fun _ => some "bc1qwitness" }

/-- The wallet derived from `btcPrimsW` in the mnemonic branch. -/
def btcWalletW : BlockchainWallet :=
  { address := "bc1qwitness", privateKey := "02", mnemonic := some "test words" }

/-- An ethers wallet as produced by `createRandom` (has a mnemonic). -/
def evmRandomW : EthersWallet :=
  { address := "0xabc", privateKey := "0x01", mnemonic := some "evm words" }

/-- An ethers wallet built from raw random bytes (no mnemonic). -/
def evmRawW : EthersWallet :=
  { address := "0xdef", privateKey := "0x02", mnemonic := none }

/-- Witness for C5 at concrete primitives, covering a mnemonic-bearing
Bitcoin derivation and a non-mnemonic EVM derivation. -/
theorem wallet_mnemonic_iff_phrase_derivation_witness :
    btcWalletW.mnemonic.isSome = true ∧
    (generateEVMWallet evmRandomW evmRawW false).mnemonic.isSome = false :=
  ⟨wallet_mnemonic_iff_phrase_derivation.1 btcPrimsW true btcWalletW (by rfl),
   wallet_mnemonic_iff_phrase_derivation.2 evmRandomW evmRawW false (by rfl)⟩

/-- C9: wallet creation succeeds only for the network keys registered by
`initializeNetworks` — bitcoin plus the six EVM chains — matched on the
lowercased network string; for any other network string, `createWallet`
throws the unsupported-network error.  In particular `solana` and `tezos`,
listed as families by the NetworkFamily enumeration, are not supported, while
case variants such as `Bitcoin` are. -/
theorem createWallet_supported_networks_only (walletName network : String)
    (useMnemonic : Bool) (btc : BtcPrims) (createRandom fromKey : EthersWallet)
    (now : String) :
    ((∃ w, createWallet walletName network useMnemonic btc createRandom fromKey now = .ok w) →
      supportedNetworkNames.contains (strToLower network) = true) ∧
    (supportedNetworkNames.contains (strToLower network) = false →
      createWallet walletName network useMnemonic btc createRandom fromKey now =
        .error ("Unsupported blockchain network: " ++ network)) ∧
    supportedNetworkNames.contains (strToLower "solana") = false ∧
    supportedNetworkNames.contains (strToLower "tezos") = false ∧
    supportedNetworkNames.contains (strToLower "Bitcoin") = true := by
  have hsup : supportedNetworkNames.contains (strToLower network) =
      ((strToLower network == "bitcoin") || evmNetworks.contains (strToLower network)) := by
    simp only [supportedNetworkNames, List.contains_cons]
  refine ⟨?_, ?_, by decide, by decide, by decide⟩
  · rintro ⟨w, hw⟩
    unfold createWallet at hw
    dsimp only at hw
    by_cases hb : (strToLower network == "bitcoin") = true
    · rw [hsup, hb, Bool.true_or]
    · rw [Bool.not_eq_true] at hb
      rw [hb] at hw
      simp only [Bool.false_eq_true, if_false] at hw
      by_cases hev : evmNetworks.contains (strToLower network) = true
      · rw [hsup, hev, Bool.or_true]
      · rw [Bool.not_eq_true] at hev
        rw [hev] at hw
        simp at hw
  · intro hns
    rw [hsup] at hns
    obtain ⟨hb, hev⟩ := Bool.or_eq_false_iff.mp hns
    unfold createWallet
    dsimp only
    rw [hb, hev]
    simp

/-- Witness for C9: creating a `solana` wallet fails with the
unsupported-network error. -/
theorem createWallet_supported_networks_only_witness :
    createWallet "w1" "solana" true btcPrimsW evmRandomW evmRawW "t0" =
      .error ("Unsupported blockchain network: " ++ "solana") :=
  (createWallet_supported_networks_only "w1" "solana" true btcPrimsW evmRandomW
    evmRawW "t0").2.1 (by decide)

/-- C6: for every configuration and probe, the validation result has
`isValid = true` exactly when its error list is empty; the validity of a
result is independent of the observed block number, gas price and latency;
and the zero-block-height, over-1000-ms-latency and gas-price-above-ceiling
conditions are recorded in the warnings list. -/
theorem validateNetwork_validity_semantics (options : NetworkOptions)
    (probe : ValidateProbe) :
    ((validateNetwork options probe).isValid = true ↔
      (validateNetwork options probe).errors = []) ∧
    (∀ (getN : Except String Nat) (bn gp lat bn' gp' lat' : Nat),
      (validateNetwork options ⟨getN, .ok (bn, gp), .ok lat⟩).isValid =
        (validateNetwork options ⟨getN, .ok (bn', gp'), .ok lat'⟩).isValid) ∧
    (∀ (c gp lat : Nat), c ≠ 0 →
      "Network might be inactive (block number is 0)" ∈
        (validateNetwork options ⟨.ok c, .ok (0, gp), .ok lat⟩).warnings) ∧
    (∀ (c bn gp lat : Nat), c ≠ 0 → lat > 1000 →
      ("High latency detected: " ++ toString lat ++ "ms") ∈
        (validateNetwork options ⟨.ok c, .ok (bn, gp), .ok lat⟩).warnings) ∧
    (∀ (c bn gp lat g : Nat), c ≠ 0 → options.maxGasPrice = some g →
      gp > g * 1000000000 →
      ("Current gas price (" ++ formatGwei gp ++ " gwei) exceeds specified maximum") ∈
        (validateNetwork options ⟨.ok c, .ok (bn, gp), .ok lat⟩).warnings) := by
  refine ⟨?_, ?_, ?_, ?_, ?_⟩
  · unfold validateNetwork
    rcases probe with ⟨gn, core, lp⟩
    dsimp only
    cases gn with
    | error msg => simp
    | ok c =>
      dsimp only
      by_cases hc : c = 0
      · simp [hc]
      · rw [if_neg hc]
        cases core with
        | error msg => simp
        | ok pair =>
          rcases pair with ⟨bn, gp⟩
          dsimp only
          cases lp with
          | error msg => simp [List.isEmpty_iff]
          | ok lat => simp [List.isEmpty_iff]
  · intro getN bn gp lat bn' gp' lat'
    unfold validateNetwork
    dsimp only
    cases getN with
    | error msg => rfl
    | ok c =>
      dsimp only
      by_cases hc : c = 0
      · simp [hc]
      · rw [if_neg hc, if_neg hc]
  · intro c gp lat hc
    unfold validateNetwork
    dsimp only
    rw [if_neg hc]
    simp
  · intro c bn gp lat hc hlat
    unfold validateNetwork
    dsimp only
    rw [if_neg hc]
    simp [hlat]
  · intro c bn gp lat g hc hmg hgp
    unfold validateNetwork
    dsimp only
    rw [if_neg hc, hmg]
    simp [hgp]

/-- Witness for C6 at a concrete probe: a reachable endpoint with matching
chain id, block height zero and moderate latency is valid with one warning
recorded. -/
theorem validateNetwork_validity_semantics_witness :
    ((validateNetwork { name := "local", rpcUrl := "http://127.0.0.1:8545" }
        ⟨.ok 1337, .ok (0, 100), .ok 40⟩).isValid = true ↔
      (validateNetwork { name := "local", rpcUrl := "http://127.0.0.1:8545" }
        ⟨.ok 1337, .ok (0, 100), .ok 40⟩).errors = []) ∧
    "Network might be inactive (block number is 0)" ∈
      (validateNetwork { name := "local", rpcUrl := "http://127.0.0.1:8545" }
        ⟨.ok 1337, .ok (0, 100), .ok 40⟩).warnings :=
  ⟨(validateNetwork_validity_semantics { name := "local", rpcUrl := "http://127.0.0.1:8545" }
      ⟨.ok 1337, .ok (0, 100), .ok 40⟩).1,
   (validateNetwork_validity_semantics { name := "local", rpcUrl := "http://127.0.0.1:8545" }
      ⟨.ok 1337, .ok (0, 100), .ok 40⟩).2.2.1 1337 100 40 (by decide)⟩

/-- C7: benchmarking a registered network against an endpoint whose liveness
call always errors returns (rather than throws) a result with
`errorRate = 1` (the `requestCount = 0` fallback) and
`requestsPerSecond = 0`. -/
theorem benchmark_all_errors_result (networks : List NetworkConfig)
    (name : String) (calls : List (Except String Nat)) (totalTime : Rat)
    (hfound : (networks.find? (fun n => n.name == name)).isSome = true)
    (hall : ∀ c ∈ calls, Except.toOption c = (none : Option Nat)) :
    ∃ updated, benchmarkNetwork networks name calls totalTime =
      .ok (updated, benchResult calls totalTime) ∧
      (benchResult calls totalTime).errorRate = 1 ∧
      (benchResult calls totalTime).requestsPerSecond = 0 := by
  obtain ⟨cfg, hcfg⟩ := Option.isSome_iff_exists.mp hfound
  have hsamples : benchSamples calls = [] := by
    unfold benchSamples
    rw [List.filterMap_eq_nil_iff]
    exact hall
  refine ⟨storeBenchmark networks name (benchResult calls totalTime), ?_, ?_, ?_⟩
  · unfold benchmarkNetwork
    rw [hcfg]
  · unfold benchResult
    rw [hsamples]
    simp
  · unfold benchResult
    rw [hsamples]
    simp

/-- A registered network for the benchmark scenarios. -/
def cfgBench : NetworkConfig :=
  { name := "x", rpcUrl := "http://x.example", chainId := 7, currency := "ETH" }

/-- Witness for C7: a one-second benchmark of registered network `x` whose
single liveness call errors. -/
theorem benchmark_all_errors_result_witness :
    ∃ updated, benchmarkNetwork [cfgBench] "x" [.error "connect ECONNREFUSED"] 1 =
      .ok (updated, benchResult [.error "connect ECONNREFUSED"] 1) ∧
      (benchResult [.error "connect ECONNREFUSED"] 1).errorRate = 1 ∧
      (benchResult [.error "connect ECONNREFUSED"] 1).requestsPerSecond = 0 :=
  benchmark_all_errors_result [cfgBench] "x" [.error "connect ECONNREFUSED"] 1
    (by rfl)
    (by intro c hc; rw [List.mem_singleton] at hc; subst hc; rfl)

/-- C10: `requestCount` counts only successful liveness calls, so
`requestsPerSecond` is successes over the elapsed time and `errorRate` is
errored calls divided by successful calls (not by total calls); whenever
errors outnumber successes, the reported rate exceeds 1. -/
theorem benchmark_error_rate_counts_successes (networks : List NetworkConfig)
    (name : String) (calls : List (Except String Nat)) (totalTime : Rat)
    (updated : List NetworkConfig) (r : BenchmarkResult)
    (h : benchmarkNetwork networks name calls totalTime = .ok (updated, r))
    (hpos : 0 < (benchSamples calls).length) :
    r.requestsPerSecond = ((benchSamples calls).length : Rat) / totalTime ∧
    r.errorRate = (benchErrCount calls : Rat) / ((benchSamples calls).length : Rat) ∧
    ((benchSamples calls).length < benchErrCount calls → 1 < r.errorRate) := by
  have hr : r = benchResult calls totalTime := by
    unfold benchmarkNetwork at h
    rcases hf : networks.find? (fun n => n.name == name) with _ | cfg
    · rw [hf] at h; simp at h
    · rw [hf] at h
      simp only [Except.ok.injEq, Prod.mk.injEq] at h
      exact h.2.symm
  subst hr
  refine ⟨rfl, ?_, ?_⟩
  · unfold benchResult
    dsimp only
    rw [if_pos hpos]
  · intro hlt
    unfold benchResult
    dsimp only
    rw [if_pos hpos]
    have hs : (0 : Rat) < ((benchSamples calls).length : Rat) := by exact_mod_cast hpos
    rw [one_lt_div hs]
    exact_mod_cast hlt

/-- Witness for C10: two errored calls against one successful call give
`errorRate = 2`, exceeding 1. -/
theorem benchmark_error_rate_counts_successes_witness :
    1 < (benchResult [.error "a1", .error "a2", .ok 5] 1).errorRate :=
  (benchmark_error_rate_counts_successes [cfgBench] "x"
    [.error "a1", .error "a2", .ok 5] 1
    (storeBenchmark [cfgBench] "x" (benchResult [.error "a1", .error "a2", .ok 5] 1))
    (benchResult [.error "a1", .error "a2", .ok 5] 1)
    (by rfl) (by decide)).2.2 (by decide)

/-- A stored wallet on the ethereum target network. -/
def wAlice : WalletData :=
  { name := "alice", network := "ethereum", address := "0xaaaa1111",
    privateKey := "pk1" }

/-- An import record whose exact name-network pair is absent from the store
but whose name is a substring of a stored wallet's name. -/
def wAli : WalletData :=
  { name := "ali", network := "ethereum", address := "0xbbbb2222",
    privateKey := "pk2" }

/-- C8 counterexample: with `overwrite = false`, importing the single record
`ali` into a store containing only `alice` skips it — `walletExists` matches
names by substring (`includes`), not by exact `(name, network)` — although no
wallet named `ali` exists on the target network, so the claim's "every other
record is written and counted as imported" fails. -/
theorem importWallets_substring_skip :
    (¬ ∃ w ∈ [wAlice], w.name = "ali" ∧ w.network = "ethereum") ∧
    importWallets [wAlice] [wAli] { network := "ethereum", overwrite := false } =
      ([wAlice], 0, 1) := by
  constructor
  · rintro ⟨w, hw, hname, _⟩
    rw [List.mem_singleton] at hw
    subst hw
    exact absurd hname (by decide)
  · rfl

/-- With non-empty name and network filters, `matchesFilter` reduces to an
exact network match together with a name substring match. -/
lemma matchesFilter_name_network (w : WalletData) (name network : String)
    (hname : ¬ name = "") (hnet : ¬ network = "") :
    matchesFilter w { name := some name, network := some network } =
      ((w.network == network) && strIncludes w.name name) := by
  unfold matchesFilter
  dsimp only
  rw [beq_eq_false_iff_ne.mpr hnet, beq_eq_false_iff_ne.mpr hname]
  simp

/-- C8 (amended): with `overwrite = false`, a record is skipped (and counted)
exactly when some stored wallet on the target network has the record's name
as a substring of its own name — in particular every record whose exact
`(name, network)` pair exists is skipped — and every other record is saved
and counted as imported; a file of three records with exactly one (exact)
name collision and no other substring overlap yields
`(imported, skipped) = (2, 1)`. -/
theorem importWallets_skip_semantics :
    (∀ (store : List WalletData) (r : WalletData) (options : ImportOptions),
      options.overwrite = false →
      importWallets store [r] options =
        (if walletExists store r.name options.network then (store, 0, 1)
         else (saveWallet store r, 1, 0))) ∧
    (∀ (store : List WalletData) (name network : String),
      ¬ name = "" → ¬ network = "" →
      (walletExists store name network = true ↔
        ∃ w ∈ store, w.network = network ∧ strIncludes w.name name = true)) ∧
    importWallets [wAlice]
      [{ name := "alice", network := "ethereum", address := "0xcccc3333", privateKey := "pk3" },
       { name := "bob", network := "ethereum", address := "0xdddd4444", privateKey := "pk4" },
       { name := "carol", network := "ethereum", address := "0xeeee5555", privateKey := "pk5" }]
      { network := "ethereum", overwrite := false } =
      ([wAlice,
        { name := "bob", network := "ethereum", address := "0xdddd4444", privateKey := "pk4" },
        { name := "carol", network := "ethereum", address := "0xeeee5555", privateKey := "pk5" }],
       2, 1) := by
  refine ⟨?_, ?_, by rfl⟩
  · intro store r options hov
    unfold importWallets
    simp only [List.foldl_cons, List.foldl_nil, importStep, hov]
    by_cases hex : walletExists store r.name options.network
    · simp [hex]
    · simp [hex]
  · intro store name network hname hnet
    have hm : ∀ w : WalletData,
        matchesFilter w { name := some name, network := some network } = true ↔
          (w.network = network ∧ strIncludes w.name name = true) := by
      intro w
      rw [matchesFilter_name_network w name network hname hnet]
      simp [Bool.and_eq_true]
    unfold walletExists findWallets
    constructor
    · intro h
      have hne : store.filter
          (fun w => matchesFilter w { name := some name, network := some network }) ≠ [] := by
        intro hnil
        rw [hnil] at h
        exact absurd h (by decide)
      obtain ⟨w, hw⟩ := List.exists_mem_of_ne_nil _ hne
      rw [List.mem_filter] at hw
      exact ⟨w, hw.1, (hm w).mp hw.2⟩
    · rintro ⟨w, hwmem, hprop⟩
      have hwf : w ∈ store.filter
          (fun w => matchesFilter w { name := some name, network := some network }) :=
        List.mem_filter.mpr ⟨hwmem, (hm w).mpr hprop⟩
      cases hfil : store.filter
          (fun w => matchesFilter w { name := some name, network := some network }) with
      | nil => rw [hfil] at hwf; exact absurd hwf (List.not_mem_nil _)
      | cons a l => rfl

/-- Witness for the amended C8 theorem at a concrete store and record. -/
theorem importWallets_skip_semantics_witness :
    importWallets [wAlice] [wAli] { network := "ethereum", overwrite := false } =
      (if walletExists [wAlice] "ali" "ethereum" then ([wAlice], 0, 1)
       else (saveWallet [wAlice] wAli, 1, 0)) ∧
    (walletExists [wAlice] "ali" "ethereum" = true ↔
      ∃ w ∈ [wAlice], w.network = "ethereum" ∧ strIncludes w.name "ali" = true) :=
  ⟨importWallets_skip_semantics.1 [wAlice] wAli
      { network := "ethereum", overwrite := false } rfl,
   importWallets_skip_semantics.2.1 [wAlice] "ali" "ethereum"
      (by decide) (by decide)⟩

end CliCrypto
